import Mathlib

/-!
Verification of the certica repository (a local certificate-authority
workbench) against its natural-language specification.

The Python source shells out to openssl and mutates a directory tree under a
base directory.  We embed the relevant behaviour shallowly:

* the filesystem is a value of type FS: a list of (path, mode) files plus a
  list of directories, with paths as component lists (the transient openssl
  config file produced by tempfile lives outside the base directory and is
  always unlinked in a finally block, so it is not part of the model);
* each external openssl invocation is an oracle outcome (StepOutcome): it
  either succeeds, or fails with an abstract error id, possibly leaving a
  partial output file behind; KeyboardInterrupt and chmod failures are
  covered by the same abstract error ids;
* raised Python exceptions become values of PyError, and the manager
  operations return the final filesystem, an Except result, and the list of
  external tool invocations actually performed.

All definitions are executable so that concrete runs can be evaluated.
-/

namespace Certica

/-- A filesystem path, as its list of components (no separators). -/
abbrev PathC := List String

/-- Filesystem state: regular files with their numeric mode, and directories. -/
structure FS where
  files : List (PathC × Nat)
  dirs : List PathC
deriving DecidableEq, Repr

/-- Python Path.exists for a regular file. -/
def FS.fileExists (fs : FS) (p : PathC) : Bool :=
  fs.files.any (fun e => e.1 == p)

/-- Mode of a file, if present. -/
def FS.fileMode (fs : FS) (p : PathC) : Option Nat :=
  (fs.files.find? (fun e => e.1 == p)).map (fun e => e.2)

/-- Directory existence. -/
def FS.dirExists (fs : FS) (p : PathC) : Bool :=
  fs.dirs.any (fun d => d == p)

/-- Create or overwrite a file with the given mode. -/
def FS.writeFile (fs : FS) (p : PathC) (m : Nat) : FS :=
  FS.mk ((p, m) :: fs.files.filter (fun e => !(e.1 == p))) fs.dirs

/-- Path.unlink: remove a file. -/
def FS.unlink (fs : FS) (p : PathC) : FS :=
  FS.mk (fs.files.filter (fun e => !(e.1 == p))) fs.dirs

/-- os.chmod: change the mode of a file, if present. -/
def FS.chmod (fs : FS) (p : PathC) (m : Nat) : FS :=
  FS.mk (fs.files.map (fun e => if e.1 == p then (e.1, m) else e)) fs.dirs

/-- Path.mkdir with exist_ok=True (parents are handled by the callers,
which create the parent first where the source relies on parents=True). -/
def FS.mkdir (fs : FS) (p : PathC) : FS :=
  if fs.dirExists p then fs else FS.mk fs.files (p :: fs.dirs)

/-- Path.rmdir: remove a directory. -/
def FS.rmdir (fs : FS) (p : PathC) : FS :=
  FS.mk fs.files (fs.dirs.filter (fun d => !(d == p)))

/-- d is a strict ancestor of p. -/
def strictUnder (d p : PathC) : Bool :=
  d.isPrefixOf p && !(d == p)

/-- any(dir.iterdir()) over the whole subtree: the directory d has some
entry (file or directory) strictly below it.  A directory is empty in the
sense of iterdir exactly when nothing at all lies strictly below it. -/
def FS.hasEntryUnder (fs : FS) (d : PathC) : Bool :=
  fs.files.any (fun e => strictUnder d e.1) || fs.dirs.any (fun q => strictUnder d q)

/-- All strict non-empty prefixes of a path: its ancestor directories. -/
def ancestorsC (p : PathC) : List PathC :=
  (List.range (p.length - 1)).map (fun k => p.take (k + 1))

/-- Well-formed filesystem: every ancestor directory of a file or directory
is itself present as a directory.  Any state reachable through the real
filesystem satisfies this. -/
def FS.wf (fs : FS) : Bool :=
  fs.files.all (fun e => (ancestorsC e.1).all (fun d => fs.dirExists d)) &&
  fs.dirs.all (fun p => (ancestorsC p).all (fun d => fs.dirExists d))

/-- Name of p as an immediate child of directory d, if it is one. -/
def childNameUnder (d p : PathC) : Option String :=
  if p.length = d.length + 1 && d.isPrefixOf p then p.getLast? else none

/-- dir.iterdir() with an is_dir flag: immediate children of d, each with
whether the entry is a directory. -/
def FS.dirEntries (fs : FS) (d : PathC) : List (String × Bool) :=
  fs.dirs.filterMap (fun p => (childNameUnder d p).map (fun n => (n, true))) ++
  fs.files.filterMap (fun e => (childNameUnder d e.1).map (fun n => (n, false)))

/-! ## Error and step-outcome model

A raised Python exception is a PyError value.  External-tool invocations and
os.chmod calls are modelled by oracle outcomes supplied in an environment
record: an abstract error id stands for the exception raised by a failing
step (subprocess.CalledProcessError, OSError, KeyboardInterrupt, ...), and a
failing file-producing step may or may not leave a partial output file. -/

inductive PyError where
  | alreadyExists
  | external (err : Nat)
  | unboundLocal (name : String)
  | fileNotFound (msg : String)
deriving DecidableEq, Repr

inductive StepOutcome where
  | ok
  | fail (leavesOutput : Bool) (err : Nat)
deriving DecidableEq, Repr

/-- Outcomes of the external steps of CAManager.create_root_ca: the two
openssl invocations and the two os.chmod calls (none = chmod succeeds). -/
structure CAEnv where
  genKey : StepOutcome
  genCert : StepOutcome
  chmodKey : Option Nat
  chmodCert : Option Nat
deriving DecidableEq, Repr

/-- Result of running a manager operation: final filesystem, the returned
value or raised error, and the external tool invocations performed. -/
structure RunResult (α : Type) where
  fs : FS
  result : Except PyError α
  extCalls : List String

/-! ## CA Manager (src/certica/ca_manager.py) -/

def caSubdirOf (n : String) : PathC := ["ca", n]

def caKeyPath (n : String) : PathC := ["ca", n, n ++ ".key.pem"]

def caCertPath (n : String) : PathC := ["ca", n, n ++ ".cert.pem"]

/-- The dict returned by create_root_ca. -/
structure CACreated where
  caName : String
  caKey : PathC
  caCert : PathC
  keySize : Nat
  validityDays : Nat
deriving DecidableEq, Repr

/-- if path.exists(): path.unlink() -/
def condUnlink (fs : FS) (p : PathC) : FS :=
  if fs.fileExists p then fs.unlink p else fs

/-- if d.exists() and not any(d.iterdir()): d.rmdir() -/
def rmdirIfEmpty (fs : FS) (d : PathC) : FS :=
  if fs.dirExists d && !(fs.hasEntryUnder d) then fs.rmdir d else fs

/-- The except-handler of create_root_ca: unlink whichever of the two output
files exist, then remove the CA subdirectory if it is empty. -/
def caCleanup (fs : FS) (subdir keyP certP : PathC) : FS :=
  rmdirIfEmpty (condUnlink (condUnlink fs keyP) certP) subdir

/-- CAManager.create_root_ca.  Files created by openssl appear with a
default mode 420 before the explicit chmod; the transient config file is
created by tempfile outside the modelled tree and unconditionally unlinked
in the finally block, so it does not appear in the state. -/
def createRootCA (fs : FS) (caName : String) (keySize validityDays : Nat)
    (env : CAEnv) : RunResult CACreated :=
  if (fs.mkdir (caSubdirOf caName)).fileExists (caKeyPath caName) ||
      (fs.mkdir (caSubdirOf caName)).fileExists (caCertPath caName) then
    RunResult.mk (fs.mkdir (caSubdirOf caName)) (Except.error PyError.alreadyExists) []
  else
    match env.genKey with
    | StepOutcome.fail lo e =>
      RunResult.mk
        (caCleanup
          (if lo then (fs.mkdir (caSubdirOf caName)).writeFile (caKeyPath caName) 420
            else fs.mkdir (caSubdirOf caName))
          (caSubdirOf caName) (caKeyPath caName) (caCertPath caName))
        (Except.error (PyError.external e)) ["openssl genrsa"]
    | StepOutcome.ok =>
      match env.genCert with
      | StepOutcome.fail lo e =>
        RunResult.mk
          (caCleanup
            (if lo then
                ((fs.mkdir (caSubdirOf caName)).writeFile (caKeyPath caName) 420).writeFile
                  (caCertPath caName) 420
              else (fs.mkdir (caSubdirOf caName)).writeFile (caKeyPath caName) 420)
            (caSubdirOf caName) (caKeyPath caName) (caCertPath caName))
          (Except.error (PyError.external e)) ["openssl genrsa", "openssl req -new -x509"]
      | StepOutcome.ok =>
        match env.chmodKey with
        | some e =>
          RunResult.mk
            (caCleanup
              (((fs.mkdir (caSubdirOf caName)).writeFile (caKeyPath caName) 420).writeFile
                (caCertPath caName) 420)
              (caSubdirOf caName) (caKeyPath caName) (caCertPath caName))
            (Except.error (PyError.external e)) ["openssl genrsa", "openssl req -new -x509"]
        | none =>
          match env.chmodCert with
          | some e =>
            RunResult.mk
              (caCleanup
                ((((fs.mkdir (caSubdirOf caName)).writeFile (caKeyPath caName) 420).writeFile
                  (caCertPath caName) 420).chmod (caKeyPath caName) 0o600)
                (caSubdirOf caName) (caKeyPath caName) (caCertPath caName))
              (Except.error (PyError.external e)) ["openssl genrsa", "openssl req -new -x509"]
          | none =>
            RunResult.mk
              (((((fs.mkdir (caSubdirOf caName)).writeFile (caKeyPath caName) 420).writeFile
                (caCertPath caName) 420).chmod (caKeyPath caName) 0o600).chmod
                (caCertPath caName) 0o644)
              (Except.ok (CACreated.mk caName (caKeyPath caName) (caCertPath caName)
                keySize validityDays))
              ["openssl genrsa", "openssl req -new -x509"]

/-- The error of the first step of create_root_ca that fails, if any:
the error that the source re-raises after cleanup. -/
def caEnvFirstError (env : CAEnv) : Option Nat :=
  match env.genKey with
  | StepOutcome.fail _ e => some e
  | StepOutcome.ok =>
    match env.genCert with
    | StepOutcome.fail _ e => some e
    | StepOutcome.ok =>
      match env.chmodKey with
      | some e => some e
      | none => env.chmodCert

/-- The dict shape returned by list_cas / get_ca / get_certs_by_ca. -/
structure CAEntry where
  name : String
  key : PathC
  cert : PathC
deriving DecidableEq, Repr

/-- CAManager.list_cas. -/
def listCAs (fs : FS) : List CAEntry :=
  (fs.dirEntries ["ca"]).filterMap (fun e =>
    if e.2 && fs.fileExists (caKeyPath e.1) && fs.fileExists (caCertPath e.1) then
      some (CAEntry.mk e.1 (caKeyPath e.1) (caCertPath e.1))
    else none)

/-- CAManager.get_ca. -/
def getCA (fs : FS) (n : String) : Option CAEntry :=
  if fs.fileExists (caKeyPath n) && fs.fileExists (caCertPath n) then
    some (CAEntry.mk n (caKeyPath n) (caCertPath n))
  else none

def certDirOf (ca : String) : PathC := ["certs", ca]

def leafDirOf (ca c : String) : PathC := ["certs", ca, c]

def leafKeyPath (ca c : String) : PathC := ["certs", ca, c, "key.pem"]

def leafCertPath (ca c : String) : PathC := ["certs", ca, c, "cert.pem"]

/-- CAManager.get_certs_by_ca. -/
def getCertsByCA (fs : FS) (ca : String) : List CAEntry :=
  if !(fs.dirExists (certDirOf ca)) then []
  else
    (fs.dirEntries (certDirOf ca)).filterMap (fun e =>
      if e.2 && fs.fileExists (leafKeyPath ca e.1) && fs.fileExists (leafCertPath ca e.1) then
        some (CAEntry.mk e.1 (leafKeyPath ca e.1) (leafCertPath ca e.1))
      else none)

/-! ## Certificate Manager (src/certica/cert_manager.py) -/

def leafCsrPath (ca c : String) : PathC := ["certs", ca, c, "csr.pem"]

/-- Lines 64-70 of sign_certificate: derivation of the effective common
name when the supplied one is empty (Python truthiness: only the empty
string is falsy, only the empty list is falsy). -/
def deriveCommonName (commonName : String) (dnsNames ipAddresses : List String)
    (certName : String) : String :=
  if commonName = "" then
    match dnsNames with
    | d :: _ => d
    | [] =>
      match ipAddresses with
      | i :: _ => i
      | [] => certName
  else commonName

/-- The content of the transient OpenSSL configuration produced by
CertManager._write_cert_config, as a structured value. -/
structure CertConfig where
  country : String
  state : String
  city : String
  organization : String
  commonName : String
  extendedKeyUsage : List String
  altNames : List (String × String)
deriving DecidableEq, Repr

/-- CertManager._write_cert_config: subject fields, extended key usage by
certificate type, and the subjectAltName entries DNS.i / IP.i in supplied
order (an empty altNames list models the section being omitted). -/
def writeCertConfig (certType commonName : String) (dnsNames ipAddresses : List String)
    (organization country state city : String) : CertConfig :=
  CertConfig.mk country state city organization commonName
    (if certType == "server" then ["serverAuth", "clientAuth"] else ["clientAuth"])
    ((dnsNames.enum.map (fun e => ("DNS." ++ toString (e.1 + 1), e.2))) ++
      (ipAddresses.enum.map (fun e => ("IP." ++ toString (e.1 + 1), e.2))))

/-- Outcomes of the external steps of sign_certificate: genrsa, req -new
(CSR), x509 -req (signing by the CA), and the two chmod calls. -/
structure SignEnv where
  genKey : StepOutcome
  genCSR : StepOutcome
  signStep : StepOutcome
  chmodKey : Option Nat
  chmodCert : Option Nat
deriving DecidableEq, Repr

/-- The dict returned by sign_certificate. -/
structure SignRecord where
  certName : String
  key : PathC
  cert : PathC
  certType : String
  validityDays : Nat
deriving DecidableEq, Repr

structure SignRunResult where
  fs : FS
  result : Except PyError SignRecord
  extCalls : List String
  config : CertConfig

/-- The complete except-handler of sign_certificate, reachable only when
csr_path was assigned (that is, when key generation did not raise): unlink
whichever of the three files exist, then prune the two directories if
empty, innermost first. -/
def signCleanup (fs : FS) (caCertsDir certOutputDir keyP certP csrP : PathC) : FS :=
  rmdirIfEmpty
    (rmdirIfEmpty (condUnlink (condUnlink (condUnlink fs keyP) certP) csrP) certOutputDir)
    caCertsDir

/-- The prefix of the except-handler actually executed when key generation
raises: key and cert are unlinked, then evaluating csr_path.exists() raises
UnboundLocalError, so the csr unlink and both directory removals are
skipped. -/
def signCleanupUnbound (fs : FS) (keyP certP : PathC) : FS :=
  condUnlink (condUnlink fs keyP) certP

/-- The try/except/finally block of sign_certificate (lines 95-176),
operating on the filesystem produced by the mkdir(parents=True) call.  The
CA serial file maintained by -CAcreateserial lives next to the CA
certificate and is not part of any claim, so it is not modelled. -/
def signTry (fs1 : FS) (caCertsDir certOutputDir keyP certP csrP : PathC)
    (env : SignEnv) : FS × Except PyError Unit × List String :=
  match env.genKey with
  | StepOutcome.fail lo _ =>
    (signCleanupUnbound (if lo then fs1.writeFile keyP 420 else fs1) keyP certP,
      Except.error (PyError.unboundLocal "csr_path"), ["openssl genrsa"])
  | StepOutcome.ok =>
    match env.genCSR with
    | StepOutcome.fail lo e =>
      (signCleanup
        (if lo then (fs1.writeFile keyP 420).writeFile csrP 420
          else fs1.writeFile keyP 420)
        caCertsDir certOutputDir keyP certP csrP,
        Except.error (PyError.external e), ["openssl genrsa", "openssl req -new"])
    | StepOutcome.ok =>
      match env.signStep with
      | StepOutcome.fail lo e =>
        (signCleanup
          (if lo then ((fs1.writeFile keyP 420).writeFile csrP 420).writeFile certP 420
            else (fs1.writeFile keyP 420).writeFile csrP 420)
          caCertsDir certOutputDir keyP certP csrP,
          Except.error (PyError.external e),
          ["openssl genrsa", "openssl req -new", "openssl x509 -req"])
      | StepOutcome.ok =>
        match env.chmodKey with
        | some e =>
          (signCleanup (((fs1.writeFile keyP 420).writeFile csrP 420).writeFile certP 420)
            caCertsDir certOutputDir keyP certP csrP,
            Except.error (PyError.external e),
            ["openssl genrsa", "openssl req -new", "openssl x509 -req"])
        | none =>
          match env.chmodCert with
          | some e =>
            (signCleanup
              ((((fs1.writeFile keyP 420).writeFile csrP 420).writeFile certP 420).chmod
                keyP 0o600)
              caCertsDir certOutputDir keyP certP csrP,
              Except.error (PyError.external e),
              ["openssl genrsa", "openssl req -new", "openssl x509 -req"])
          | none =>
            ((((((fs1.writeFile keyP 420).writeFile csrP 420).writeFile certP 420).chmod
              keyP 0o600).chmod certP 0o644).unlink csrP,
              Except.ok Unit.unit,
              ["openssl genrsa", "openssl req -new", "openssl x509 -req"])

/-- CertManager.sign_certificate.  The ca_key/ca_cert paths are only passed
to the external signing command; dns_names/ip_addresses arrive as optional
lists normalised to [] (lines 59-62). -/
def signCertificate (fs : FS) (_caKeyArg _caCertArg : PathC) (caName certName : String)
    (certType : String) (commonName : String)
    (dnsNamesOpt ipAddressesOpt : Option (List String))
    (organization country state city : String) (validityDays _keySize : Nat)
    (env : SignEnv) : SignRunResult :=
  SignRunResult.mk
    (signTry ((fs.mkdir (certDirOf caName)).mkdir (leafDirOf caName certName))
      (certDirOf caName) (leafDirOf caName certName) (leafKeyPath caName certName)
      (leafCertPath caName certName) (leafCsrPath caName certName) env).1
    ((signTry ((fs.mkdir (certDirOf caName)).mkdir (leafDirOf caName certName))
      (certDirOf caName) (leafDirOf caName certName) (leafKeyPath caName certName)
      (leafCertPath caName certName) (leafCsrPath caName certName) env).2.1.map
      (fun _ => SignRecord.mk certName (leafKeyPath caName certName)
        (leafCertPath caName certName) certType validityDays))
    (signTry ((fs.mkdir (certDirOf caName)).mkdir (leafDirOf caName certName))
      (certDirOf caName) (leafDirOf caName certName) (leafKeyPath caName certName)
      (leafCertPath caName certName) (leafCsrPath caName certName) env).2.2
    (writeCertConfig certType
      (deriveCommonName commonName (dnsNamesOpt.getD []) (ipAddressesOpt.getD []) certName)
      (dnsNamesOpt.getD []) (ipAddressesOpt.getD []) organization country state city)

/-! ## Internationalization layer (src/certica/i18n.py)

The process-wide mutable state (current language and loaded catalogs)
becomes an explicit I18nState value; loading a locale file becomes a
load oracle (String to catalog), with load failure modelled by the oracle
returning the empty catalog just as _load_translations does.  str.format
is modelled for the keyword-argument form used by t: a field between
braces is looked up whole in the keyword mapping, doubled braces escape,
and any parse or lookup failure yields none (Python raises, and t catches
every exception from format).  All functions are total: no input makes
translation raise. -/

def lbrace : Char := Char.ofNat 123

def rbrace : Char := Char.ofNat 125

def lookupAssoc (m : List (String × String)) (k : String) : Option String :=
  (m.find? (fun e => e.1 == k)).map (fun e => e.2)

/-- Scan a format field up to the closing brace; none if it never closes. -/
def takeField : List Char → List Char → Option (String × List Char)
  | [], _ => none
  | ch :: rest, acc =>
    if ch = rbrace then some (String.mk acc.reverse, rest)
    else takeField rest (ch :: acc)

/-- str.format over a character list, fuel-indexed for structural
recursion: every recursive call consumes at least one character and one
unit of fuel, so fuel = length + 1 can never be exhausted. -/
def pyFormatAux (kwargs : List (String × String)) : Nat → List Char → Option (List Char)
  | _, [] => some []
  | 0, _ :: _ => none
  | fuel + 1, ch :: rest =>
    if ch = lbrace then
      match rest with
      | [] => none
      | c2 :: rest2 =>
        if c2 = lbrace then (pyFormatAux kwargs fuel rest2).map (fun t => lbrace :: t)
        else
          match takeField (c2 :: rest2) [] with
          | none => none
          | some (nameStr, rest3) =>
            match lookupAssoc kwargs nameStr with
            | none => none
            | some v => (pyFormatAux kwargs fuel rest3).map (fun t => v.data ++ t)
    else if ch = rbrace then
      match rest with
      | [] => none
      | c2 :: rest2 =>
        if c2 = rbrace then (pyFormatAux kwargs fuel rest2).map (fun t => rbrace :: t)
        else none
    else (pyFormatAux kwargs fuel rest).map (fun t => ch :: t)

/-- template.format(**kwargs): some rendered string, or none when Python
format would raise (unmatched brace, or a field absent from kwargs). -/
def pyFormat (tpl : String) (kwargs : List (String × String)) : Option String :=
  (pyFormatAux kwargs (tpl.length + 1) tpl.data).map (fun cs => String.mk cs)

def SUPPORTED_LANGUAGES : List (String × String) :=
  [("en", "English"), ("zh", "Chinese"), ("fr", "French"),
   ("ru", "Russian"), ("ja", "Japanese"), ("ko", "Korean")]

def DEFAULT_LANGUAGE : String := "en"

/-- The module-level mutable state of i18n.py. -/
structure I18nState where
  currentLanguage : String
  translations : List (String × List (String × String))
deriving DecidableEq, Repr

def lookupCatalog (ts : List (String × List (String × String))) (lang : String) :
    Option (List (String × String)) :=
  (ts.find? (fun e => e.1 == lang)).map (fun e => e.2)

/-- Dictionary assignment _translations[lang] = cat. -/
def upsertCatalog (ts : List (String × List (String × String))) (lang : String)
    (cat : List (String × String)) : List (String × List (String × String)) :=
  (lang, cat) :: ts.filter (fun e => !(e.1 == lang))

def hyphen : Char := Char.ofNat 45

/-- str.split(sep) over character lists (Python semantics: non-overlapping
left-to-right matches of a non-empty separator).  Fuel-indexed for
structural recursion: every call consumes at least one character, so fuel
= length + 1 is never exhausted. -/
def splitOnLAux (sep : List Char) : Nat → List Char → List Char → List (List Char)
  | _, [], acc => [acc.reverse]
  | 0, _ :: _, acc => [acc.reverse]
  | fuel + 1, c2 :: rest, acc =>
    if sep.isPrefixOf (c2 :: rest) then
      acc.reverse :: splitOnLAux sep fuel ((c2 :: rest).drop sep.length) []
    else splitOnLAux sep fuel rest (c2 :: acc)

/-- str.split(sep): none models the ValueError Python raises on an empty
separator. -/
def splitOnL (sep l : List Char) : Option (List (List Char)) :=
  if sep.isEmpty then none else some (splitOnLAux sep (l.length + 1) l [])

/-- Normalisation in set_language: lower-case, keep the part before the
first hyphen (lang.lower().split("-")[0]). -/
def normalizeLang (lang : String) : String :=
  String.mk
    ((splitOnLAux [hyphen] (lang.data.length + 1) (lang.data.map Char.toLower) []).headD [])

/-- i18n.set_language: returns the new state and the success boolean. -/
def setLanguage (load : String → List (String × String)) (st : I18nState)
    (lang : String) : I18nState × Bool :=
  if (SUPPORTED_LANGUAGES.map Prod.fst).contains (normalizeLang lang) then
    (I18nState.mk (normalizeLang lang)
      (if normalizeLang lang ≠ DEFAULT_LANGUAGE then
        upsertCatalog
          (upsertCatalog st.translations (normalizeLang lang) (load (normalizeLang lang)))
          DEFAULT_LANGUAGE (load DEFAULT_LANGUAGE)
      else upsertCatalog st.translations (normalizeLang lang) (load (normalizeLang lang))),
      true)
  else (st, false)

/-- The truthy catalog hit of t: the language is loaded, the key present,
and its value non-empty (Python: if translation:). -/
def catalogHit (st : I18nState) (lang key : String) : Option String :=
  match lookupCatalog st.translations lang with
  | none => none
  | some cat =>
    match lookupAssoc cat key with
    | none => none
    | some v => if v = "" then none else some v

/-- translation.format(**kwargs) if kwargs else translation, with format
failure returning the un-interpolated string. -/
def applyKwargs (s : String) (kwargs : List (String × String)) : String :=
  if kwargs.isEmpty then s else (pyFormat s kwargs).getD s

/-- i18n.t: active-language catalog, then English catalog, then the key
itself (interpolated as a template when kwargs were given and fit). -/
def tFun (st : I18nState) (key : String) (kwargs : List (String × String)) : String :=
  match catalogHit st st.currentLanguage key with
  | some v => applyKwargs v kwargs
  | none =>
    match catalogHit st DEFAULT_LANGUAGE key with
    | some v => applyKwargs v kwargs
    | none =>
      if kwargs.isEmpty then key
      else (pyFormat key kwargs).getD key

/-! ## Certificate info operations (ca_manager.get_ca_info,
cert_manager.get_certificate_info)

The openssl x509 -text -noout invocation is abstracted into an outcome:
the process ran and exited 0 with some stdout, the process ran and exited
non-zero (check=True turns this into subprocess.CalledProcessError), or the
process could not be started at all (FileNotFoundError / OSError).  Both
info functions catch only CalledProcessError. -/

inductive RunOutcome where
  | success (stdout : String)
  | calledProcessError (code : Nat)
  | startFailure (msg : String)
deriving DecidableEq, Repr

/-- CAManager.get_ca_info: the value of the info key, or the exception it
lets escape. -/
def getCAInfo (run : RunOutcome) : Except PyError String :=
  match run with
  | RunOutcome.success out => Except.ok out
  | RunOutcome.calledProcessError _ => Except.ok "Failed to read certificate"
  | RunOutcome.startFailure msg => Except.error (PyError.fileNotFound msg)

/-- CertManager.get_certificate_info: identical body. -/
def getCertificateInfo (run : RunOutcome) : Except PyError String :=
  match run with
  | RunOutcome.success out => Except.ok out
  | RunOutcome.calledProcessError _ => Except.ok "Failed to read certificate"
  | RunOutcome.startFailure msg => Except.error (PyError.fileNotFound msg)

def exceptIsOk (r : Except PyError String) : Bool :=
  match r with
  | Except.ok _ => true
  | Except.error _ => false

/-! ## System Checker (src/certica/system_check.py) and CLI gating
(src/certica/cli.py)

Tool probing (shutil.which plus a 5-second test invocation) is abstracted
into an availability oracle per tool name; the registry keeps the
required flag exactly as built in SystemChecker.__init__ for each
platform. -/

inductive Platform where
  | linux
  | darwin
  | windows
  | other
deriving DecidableEq, Repr

/-- SystemChecker.required_tools: name and required flag.  openssl is
always registered and is the only tool with required=True; the
platform-specific additions are all optional. -/
def requiredTools (p : Platform) : List (String × Bool) :=
  [("openssl", true)] ++
    (match p with
    | Platform.linux =>
      [("update-ca-certificates", false), ("update-ca-trust", false),
        ("trust", false), ("sudo", false)]
    | Platform.darwin => [("security", false), ("sudo", false)]
    | Platform.windows => [("certutil", false)]
    | Platform.other => [])

structure ToolResult where
  toolName : String
  available : Bool
  required : Bool
deriving DecidableEq, Repr

/-- SystemChecker.check_all over the availability oracle. -/
def checkAll (p : Platform) (avail : String → Bool) : List ToolResult :=
  (requiredTools p).map (fun t2 => ToolResult.mk t2.1 (avail t2.1) t2.2)

/-- SystemChecker.print_check_results: the returned flag starts true and is
cleared by every required tool that is unavailable; optional tools only
produce warnings. -/
def printCheckResults (results : List ToolResult) : Bool :=
  results.foldl (fun acc r => if r.required && !r.available then false else acc) true

/-- check_system_requirements. -/
def checkSystemRequirements (p : Platform) (avail : String → Bool) : Bool :=
  printCheckResults (checkAll p avail)

inductive CliOutcome where
  | exited (code : Nat)
  | proceeded
deriving DecidableEq, Repr

structure CliStart where
  outcome : CliOutcome
  managersConstructed : Bool
deriving DecidableEq, Repr

/-- The cli group callback (cli.py lines 48-67): --check-only exits with
the status of the check; otherwise a failed check without --skip-check exits
with code 1 before any manager is constructed; else the four managers are
constructed and dispatch proceeds. -/
def cliStart (skipCheck checkOnly checkResult : Bool) : CliStart :=
  if checkOnly then CliStart.mk (CliOutcome.exited (if checkResult then 0 else 1)) false
  else if !skipCheck && !checkResult then CliStart.mk (CliOutcome.exited 1) false
  else CliStart.mk CliOutcome.proceeded true

/-! ## CLI path formatting (cli._format_path)

Modelled over character lists because String.splitOn and
String.isPrefixOf do not reduce in the kernel.  Path.resolve is modelled as
prefixing the current working directory to relative paths; paths are
assumed already normalised and symlink-free.  The only exception the
Python body can raise comes from path_str.split("") (ValueError on an
empty base_dir), which the enclosing try/except converts to returning the
original path: that is the none branch of splitOnL. -/

def slashC : Char := Char.ofNat 47

def backslashC : Char := Char.ofNat 92

def dotC : Char := Char.ofNat 46

def isAbsoluteL (p : List Char) : Bool :=
  match p with
  | [] => false
  | c2 :: _ => c2 == slashC

/-- Path.resolve relative to an absolute current working directory. -/
def resolveL (cwd p : List Char) : List Char :=
  if isAbsoluteL p then p else cwd ++ [slashC] ++ p

/-- cli._format_path: strip the base_dir prefix for display, trying the
raw prefix (with either separator), then resolved-ancestor containment,
then a substring split, and otherwise returning the path unchanged. -/
def formatPath (cwd baseDir path : List Char) : List Char :=
  if (baseDir ++ [slashC]).isPrefixOf path then path.drop (baseDir.length + 1)
  else if (baseDir ++ [backslashC]).isPrefixOf path then path.drop (baseDir.length + 1)
  else if (resolveL cwd baseDir ++ [slashC]).isPrefixOf (resolveL cwd path) then
    (resolveL cwd path).drop ((resolveL cwd baseDir).length + 1)
  else if resolveL cwd path = resolveL cwd baseDir then [dotC]
  else
    match splitOnL baseDir path with
    | none => path
    | some parts =>
      if parts.length > 1 then
        if ((parts.getD 1 []).dropWhile
            (fun c2 => c2 == slashC || c2 == backslashC)).isEmpty then path
        else (parts.getD 1 []).dropWhile (fun c2 => c2 == slashC || c2 == backslashC)
      else path

/-- cli.sign (line 161): the common name handed to sign_certificate is
cn or name — the --cn value when supplied and non-empty (click passes
None when the flag is absent, and the empty string is falsy), otherwise
the certificate name. -/
def cliSignCommonName (cn : Option String) (name : String) : String :=
  match cn with
  | none => name
  | some c2 => if c2 = "" then name else c2

/-! Basic lemmas about the filesystem operations. -/

theorem fileExists_iff (fs : FS) (p : PathC) :
    fs.fileExists p = true ↔ ∃ m, (p, m) ∈ fs.files := by
  simp only [FS.fileExists, List.any_eq_true, beq_iff_eq]
  constructor
  · rintro ⟨⟨q, m⟩, hmem, h⟩
    exact ⟨m, h ▸ hmem⟩
  · rintro ⟨m, hmem⟩
    exact ⟨(p, m), hmem, rfl⟩

theorem dirExists_iff (fs : FS) (p : PathC) :
    fs.dirExists p = true ↔ p ∈ fs.dirs := by
  simp [FS.dirExists, List.any_eq_true]

theorem fileExists_mkdir (fs : FS) (d p : PathC) :
    (fs.mkdir d).fileExists p = fs.fileExists p := by
  unfold FS.mkdir
  split <;> rfl

theorem files_mkdir (fs : FS) (d : PathC) :
    (fs.mkdir d).files = fs.files := by
  unfold FS.mkdir
  split <;> rfl

theorem dirExists_mkdir_self (fs : FS) (d : PathC) :
    (fs.mkdir d).dirExists d = true := by
  unfold FS.mkdir
  split
  · assumption
  · simp [FS.dirExists]

theorem filter_ne_of_not_exists (fs : FS) (p : PathC) (h : fs.fileExists p = false) :
    fs.files.filter (fun e => !(e.1 == p)) = fs.files := by
  apply List.filter_eq_self.mpr
  intro e hmem
  simp only [Bool.not_eq_eq_eq_not, Bool.not_true, beq_eq_false_iff_ne, ne_eq]
  intro hep
  have : fs.fileExists p = true := (fileExists_iff fs p).mpr ⟨e.2, by
    have : e = (p, e.2) := by
      cases e
      simp_all
    rw [← this]; exact hmem⟩
  simp [this] at h

theorem filter_idemOn (l : List (PathC × Nat)) (q : PathC × Nat → Bool) :
    (l.filter q).filter q = l.filter q := by
  induction l with
  | nil => rfl
  | cons a t ih =>
    cases h : q a <;> simp [List.filter_cons, h, ih]

theorem unlink_writeFile (fs : FS) (p : PathC) (m : Nat)
    (h : fs.fileExists p = false) :
    ((fs.writeFile p m).unlink p).files = fs.files := by
  show (((p, m) :: fs.files.filter (fun e => !(e.1 == p))).filter
      (fun e => !(e.1 == p))) = fs.files
  rw [List.filter_cons]
  simp only [beq_self_eq_true, Bool.not_true, Bool.false_eq_true, if_false]
  rw [filter_idemOn]
  exact filter_ne_of_not_exists fs p h

/-! Lemmas about the cleanup handler. -/

theorem condUnlink_eq (fs : FS) (p : PathC) :
    condUnlink fs p = FS.mk (fs.files.filter (fun e => !(e.1 == p))) fs.dirs := by
  unfold condUnlink
  split
  · rfl
  · cases fs with
    | mk fl dl =>
      have h : (FS.mk fl dl).fileExists p = false := by simp_all
      have h2 := filter_ne_of_not_exists (FS.mk fl dl) p h
      dsimp only at h2 ⊢
      rw [h2]

theorem anyEq_filter_chain (l : List (PathC × Nat)) (k c q : PathC)
    (h : q = k ∨ q = c) :
    ((l.filter (fun e => !(e.1 == k))).filter (fun e => !(e.1 == c))).any
      (fun e => e.1 == q) = false := by
  induction l with
  | nil => rfl
  | cons a t ih =>
    rw [List.filter_cons]
    cases h1 : (a.1 == k) with
    | true =>
      simp only [h1, Bool.not_true, Bool.false_eq_true, if_false]
      exact ih
    | false =>
      simp only [h1, Bool.not_false, if_true, List.filter_cons]
      cases h2 : (a.1 == c) with
      | true =>
        simp only [h2, Bool.not_true, Bool.false_eq_true, if_false]
        exact ih
      | false =>
        simp only [h2, Bool.not_false, if_true, List.any_cons, ih, Bool.or_false]
        rcases h with hq | hq
        · rw [hq]; exact h1
        · rw [hq]; exact h2

theorem caCleanup_eq (fs : FS) (sub k c : PathC) :
    caCleanup fs sub k c =
      rmdirIfEmpty
        (FS.mk ((fs.files.filter (fun e => !(e.1 == k))).filter (fun e => !(e.1 == c)))
          fs.dirs) sub := by
  unfold caCleanup
  rw [condUnlink_eq fs k, condUnlink_eq]

theorem rmdirIfEmpty_files (fs : FS) (d : PathC) :
    (rmdirIfEmpty fs d).files = fs.files := by
  unfold rmdirIfEmpty
  split <;> rfl

theorem rmdirIfEmpty_fileExists (fs : FS) (d : PathC) (q : PathC) :
    (rmdirIfEmpty fs d).fileExists q = fs.fileExists q := by
  unfold rmdirIfEmpty
  split <;> rfl

theorem strictUnder_self (d : PathC) : strictUnder d d = false := by
  simp [strictUnder]

theorem dirExists_rmdir_self (fs : FS) (p : PathC) :
    (fs.rmdir p).dirExists p = false := by
  unfold FS.rmdir FS.dirExists
  rw [List.any_eq_false]
  intro d hd
  rw [List.mem_filter] at hd
  simpa using hd.2

theorem rmdirIfEmpty_dirExists (fs : FS) (d : PathC) (hd : fs.dirExists d = true) :
    (rmdirIfEmpty fs d).dirExists d = fs.hasEntryUnder d := by
  unfold rmdirIfEmpty
  cases hE : fs.hasEntryUnder d with
  | true =>
    simp only [hd, hE, Bool.not_true, Bool.and_false, Bool.false_eq_true, if_false]
  | false =>
    simp only [hd, hE, Bool.not_false, Bool.and_true, if_true]
    exact dirExists_rmdir_self fs d

theorem caCleanup_fileExists (fs : FS) (sub k c q : PathC) (h : q = k ∨ q = c) :
    (caCleanup fs sub k c).fileExists q = false := by
  rw [caCleanup_eq, rmdirIfEmpty_fileExists]
  show ((fs.files.filter (fun e => !(e.1 == k))).filter (fun e => !(e.1 == c))).any
      (fun e => e.1 == q) = false
  exact anyEq_filter_chain fs.files k c q h

theorem caCleanup_dirExists (fs : FS) (sub k c : PathC)
    (hd : fs.dirExists sub = true) :
    (caCleanup fs sub k c).dirExists sub =
      (FS.mk ((fs.files.filter (fun e => !(e.1 == k))).filter (fun e => !(e.1 == c)))
        fs.dirs).hasEntryUnder sub := by
  rw [caCleanup_eq]
  exact rmdirIfEmpty_dirExists _ sub hd

/-! List-level computation lemmas used to normalise the intermediate
filesystems of the create/sign sequences. -/

theorem filter_ne_of_any_false (l : List (PathC × Nat)) (p : PathC)
    (h : l.any (fun e => e.1 == p) = false) :
    l.filter (fun e => !(e.1 == p)) = l := by
  apply List.filter_eq_self.mpr
  intro e hmem
  rw [List.any_eq_false] at h
  simpa using h e hmem

theorem anyEq_filter_ne (l : List (PathC × Nat)) (p q : PathC)
    (h : (p == q) = false) :
    (l.filter (fun e => !(e.1 == p))).any (fun e => e.1 == q) =
      l.any (fun e => e.1 == q) := by
  induction l with
  | nil => rfl
  | cons a t ih =>
    rw [List.filter_cons]
    cases h1 : (a.1 == p) with
    | true =>
      simp only [h1, Bool.not_true, Bool.false_eq_true, if_false, List.any_cons, ih]
      have hpq : (a.1 == q) = false := by
        have hap : a.1 = p := by simpa using h1
        rw [hap]
        exact h
      rw [hpq, Bool.false_or]
    | false =>
      simp only [h1, Bool.not_false, if_true, List.any_cons, ih]

theorem fileExists_writeFile (fs : FS) (p : PathC) (m : Nat) (q : PathC) :
    (fs.writeFile p m).fileExists q = ((p == q) || fs.fileExists q) := by
  show (((p, m) :: fs.files.filter (fun e => !(e.1 == p))).any (fun e => e.1 == q)) = _
  rw [List.any_cons]
  cases h : (p == q) with
  | true => simp [h]
  | false =>
    simp only [h, Bool.false_or]
    exact anyEq_filter_ne fs.files p q h

theorem writeFile_files_of_not_exists (fs : FS) (p : PathC) (m : Nat)
    (h : fs.fileExists p = false) :
    (fs.writeFile p m).files = (p, m) :: fs.files := by
  show (p, m) :: fs.files.filter (fun e => !(e.1 == p)) = _
  rw [filter_ne_of_any_false fs.files p h]

theorem map_chmod_of_any_false (l : List (PathC × Nat)) (p : PathC) (m : Nat)
    (h : l.any (fun e => e.1 == p) = false) :
    l.map (fun e => if e.1 == p then (e.1, m) else e) = l := by
  induction l with
  | nil => rfl
  | cons a t ih =>
    rw [List.any_cons] at h
    have h1 : (a.1 == p) = false := by
      cases h2 : (a.1 == p) <;> simp_all
    have h2 : t.any (fun e => e.1 == p) = false := by
      cases h3 : t.any (fun e => e.1 == p) <;> simp_all
    rw [List.map_cons, h1, ih h2]
    simp

theorem chainNil (l : List (PathC × Nat)) (k c : PathC)
    (hk : l.any (fun e => e.1 == k) = false)
    (hc : l.any (fun e => e.1 == c) = false) :
    ((l.filter (fun e => !(e.1 == k))).filter (fun e => !(e.1 == c))) = l := by
  rw [filter_ne_of_any_false l k hk, filter_ne_of_any_false l c hc]

theorem chainCons1 (l : List (PathC × Nat)) (k c : PathC) (m : Nat)
    (hk : l.any (fun e => e.1 == k) = false)
    (hc : l.any (fun e => e.1 == c) = false) :
    ((((k, m) :: l).filter (fun e => !(e.1 == k))).filter (fun e => !(e.1 == c))) = l := by
  rw [List.filter_cons]
  simp only [beq_self_eq_true, Bool.not_true, Bool.false_eq_true, if_false]
  exact chainNil l k c hk hc

theorem chainCons2 (l : List (PathC × Nat)) (k c : PathC) (m1 m2 : Nat)
    (hk : l.any (fun e => e.1 == k) = false)
    (hc : l.any (fun e => e.1 == c) = false)
    (hck : (c == k) = false) :
    ((((c, m2) :: (k, m1) :: l).filter (fun e => !(e.1 == k))).filter
      (fun e => !(e.1 == c))) = l := by
  rw [List.filter_cons]
  simp only [hck, Bool.not_false, if_true]
  rw [List.filter_cons]
  simp only [beq_self_eq_true, Bool.not_true, Bool.false_eq_true, if_false]
  rw [List.filter_cons]
  simp only [beq_self_eq_true, Bool.not_true, Bool.false_eq_true, if_false]
  rw [filter_ne_of_any_false l k hk]
  exact filter_ne_of_any_false l c hc

theorem hasEntryUnder_mkdirdirs (fs : FS) (sub : PathC) :
    (FS.mk fs.files (fs.mkdir sub).dirs).hasEntryUnder sub = fs.hasEntryUnder sub := by
  unfold FS.mkdir
  split
  · rfl
  · show (FS.mk fs.files (sub :: fs.dirs)).hasEntryUnder sub = _
    unfold FS.hasEntryUnder
    dsimp only
    rw [List.any_cons, strictUnder_self, Bool.false_or]

theorem caKey_ne_caCert (n : String) : caKeyPath n ≠ caCertPath n := by
  intro h
  have h2 : n ++ ".key.pem" = n ++ ".cert.pem" := by
    have h1 := congrArg (fun l : PathC => l.getLast?) h
    simpa [caKeyPath, caCertPath] using h1
  have hd := congrArg String.data h2
  rw [String.data_append, String.data_append] at hd
  have h3 := List.append_cancel_left hd
  exact absurd h3 (by decide)

theorem dirExists_writeFile (fs : FS) (p : PathC) (m : Nat) (q : PathC) :
    (fs.writeFile p m).dirExists q = fs.dirExists q := rfl

theorem dirExists_chmod (fs : FS) (p : PathC) (m : Nat) (q : PathC) :
    (fs.chmod p m).dirExists q = fs.dirExists q := rfl

/-- C1: CA creation is all-or-nothing.  For every starting filesystem and
CA parameters for which the existence check passes, if any of key
generation, certificate generation or the two chmod steps fails (or is
interrupted), then afterwards neither output file exists and the CA
subdirectory exists exactly when it had other content, with the triggering
error re-raised; on success both files exist with modes 0o600 and 0o644. -/
theorem ca_create_all_or_nothing (fs : FS) (n : String) (ks vd : Nat) (env : CAEnv)
    (hk : fs.fileExists (caKeyPath n) = false)
    (hc : fs.fileExists (caCertPath n) = false) :
    (caEnvFirstError env = none →
      (createRootCA fs n ks vd env).result =
        Except.ok (CACreated.mk n (caKeyPath n) (caCertPath n) ks vd) ∧
      (createRootCA fs n ks vd env).fs.fileMode (caKeyPath n) = some 0o600 ∧
      (createRootCA fs n ks vd env).fs.fileMode (caCertPath n) = some 0o644) ∧
    (∀ e, caEnvFirstError env = some e →
      (createRootCA fs n ks vd env).result = Except.error (PyError.external e) ∧
      (createRootCA fs n ks vd env).fs.fileExists (caKeyPath n) = false ∧
      (createRootCA fs n ks vd env).fs.fileExists (caCertPath n) = false ∧
      (createRootCA fs n ks vd env).fs.dirExists (caSubdirOf n) =
        fs.hasEntryUnder (caSubdirOf n)) := by
  have hkc : (caKeyPath n == caCertPath n) = false := by
    rw [beq_eq_false_iff_ne]
    exact caKey_ne_caCert n
  have hck : (caCertPath n == caKeyPath n) = false := by
    rw [beq_eq_false_iff_ne]
    exact fun h => caKey_ne_caCert n h.symm
  have hcond : ((fs.mkdir (caSubdirOf n)).fileExists (caKeyPath n) ||
      (fs.mkdir (caSubdirOf n)).fileExists (caCertPath n)) = false := by
    rw [fileExists_mkdir, fileExists_mkdir, hk, hc]
    rfl
  have hk1 : (fs.mkdir (caSubdirOf n)).fileExists (caKeyPath n) = false := by
    rw [fileExists_mkdir]; exact hk
  have hc1 : (fs.mkdir (caSubdirOf n)).fileExists (caCertPath n) = false := by
    rw [fileExists_mkdir]; exact hc
  have hdir : ∀ fsx : FS, fsx.dirs = (fs.mkdir (caSubdirOf n)).dirs →
      fsx.dirExists (caSubdirOf n) = true := by
    intro fsx hx
    show fsx.dirs.any (fun d => d == caSubdirOf n) = true
    rw [hx]
    exact dirExists_mkdir_self fs (caSubdirOf n)
  obtain ⟨gk, gc, ck, cc⟩ := env
  have hfinal : ∀ fsx : FS,
      ((fsx.files.filter (fun e => !(e.1 == caKeyPath n))).filter
        (fun e => !(e.1 == caCertPath n))) = fs.files →
      fsx.dirs = (fs.mkdir (caSubdirOf n)).dirs →
      (caCleanup fsx (caSubdirOf n) (caKeyPath n) (caCertPath n)).fileExists
          (caKeyPath n) = false ∧
      (caCleanup fsx (caSubdirOf n) (caKeyPath n) (caCertPath n)).fileExists
          (caCertPath n) = false ∧
      (caCleanup fsx (caSubdirOf n) (caKeyPath n) (caCertPath n)).dirExists
          (caSubdirOf n) = fs.hasEntryUnder (caSubdirOf n) := by
    intro fsx hfiles hdirs
    refine ⟨caCleanup_fileExists _ _ _ _ _ (Or.inl rfl),
      caCleanup_fileExists _ _ _ _ _ (Or.inr rfl), ?_⟩
    rw [caCleanup_dirExists _ _ _ _ (hdir fsx hdirs), hfiles, hdirs]
    exact hasEntryUnder_mkdirdirs fs (caSubdirOf n)
  cases gk with
  | fail lo e0 =>
    have hrun : createRootCA fs n ks vd (CAEnv.mk (StepOutcome.fail lo e0) gc ck cc) =
        RunResult.mk
          (caCleanup
            (if lo then (fs.mkdir (caSubdirOf n)).writeFile (caKeyPath n) 420
              else fs.mkdir (caSubdirOf n))
            (caSubdirOf n) (caKeyPath n) (caCertPath n))
          (Except.error (PyError.external e0)) ["openssl genrsa"] := by
      unfold createRootCA
      rw [hcond]
      simp only [Bool.false_eq_true, if_false]
    constructor
    · intro h0
      exact absurd h0 (by simp [caEnvFirstError])
    · intro e he
      have he2 : e0 = e := by simpa [caEnvFirstError] using he
      subst he2
      rw [hrun]
      refine ⟨rfl, ?_⟩
      apply hfinal
      · cases lo with
        | true =>
          simp only [if_true]
          rw [writeFile_files_of_not_exists _ _ _ hk1, files_mkdir]
          exact chainCons1 fs.files _ _ _ hk hc
        | false =>
          simp only [Bool.false_eq_true, if_false]
          rw [files_mkdir]
          exact chainNil fs.files _ _ hk hc
      · cases lo with
        | true => rfl
        | false => rfl
  | ok =>
    cases gc with
    | fail lo e0 =>
      have hrun : createRootCA fs n ks vd
          (CAEnv.mk StepOutcome.ok (StepOutcome.fail lo e0) ck cc) =
          RunResult.mk
            (caCleanup
              (if lo then
                  ((fs.mkdir (caSubdirOf n)).writeFile (caKeyPath n) 420).writeFile
                    (caCertPath n) 420
                else (fs.mkdir (caSubdirOf n)).writeFile (caKeyPath n) 420)
              (caSubdirOf n) (caKeyPath n) (caCertPath n))
            (Except.error (PyError.external e0))
            ["openssl genrsa", "openssl req -new -x509"] := by
        unfold createRootCA
        rw [hcond]
        simp only [Bool.false_eq_true, if_false]
      constructor
      · intro h0
        exact absurd h0 (by simp [caEnvFirstError])
      · intro e he
        have he2 : e0 = e := by simpa [caEnvFirstError] using he
        subst he2
        rw [hrun]
        refine ⟨rfl, ?_⟩
        apply hfinal
        · cases lo with
          | true =>
            simp only [if_true]
            have hc2 : ((fs.mkdir (caSubdirOf n)).writeFile (caKeyPath n) 420).fileExists
                (caCertPath n) = false := by
              rw [fileExists_writeFile, hkc, Bool.false_or]
              exact hc1
            rw [writeFile_files_of_not_exists _ _ _ hc2,
              writeFile_files_of_not_exists _ _ _ hk1, files_mkdir]
            exact chainCons2 fs.files _ _ _ _ hk hc hck
          | false =>
            simp only [Bool.false_eq_true, if_false]
            rw [writeFile_files_of_not_exists _ _ _ hk1, files_mkdir]
            exact chainCons1 fs.files _ _ _ hk hc
        · cases lo with
          | true => rfl
          | false => rfl
    | ok =>
      have hc2 : ((fs.mkdir (caSubdirOf n)).writeFile (caKeyPath n) 420).fileExists
          (caCertPath n) = false := by
        rw [fileExists_writeFile, hkc, Bool.false_or]
        exact hc1
      have hfs3 : (((fs.mkdir (caSubdirOf n)).writeFile (caKeyPath n) 420).writeFile
          (caCertPath n) 420).files =
          (caCertPath n, 420) :: (caKeyPath n, 420) :: fs.files := by
        rw [writeFile_files_of_not_exists _ _ _ hc2,
          writeFile_files_of_not_exists _ _ _ hk1, files_mkdir]
      cases ck with
      | some e0 =>
        have hrun : createRootCA fs n ks vd
            (CAEnv.mk StepOutcome.ok StepOutcome.ok (some e0) cc) =
            RunResult.mk
              (caCleanup
                (((fs.mkdir (caSubdirOf n)).writeFile (caKeyPath n) 420).writeFile
                  (caCertPath n) 420)
                (caSubdirOf n) (caKeyPath n) (caCertPath n))
              (Except.error (PyError.external e0))
              ["openssl genrsa", "openssl req -new -x509"] := by
          unfold createRootCA
          rw [hcond]
          simp only [Bool.false_eq_true, if_false]
        constructor
        · intro h0
          exact absurd h0 (by simp [caEnvFirstError])
        · intro e he
          have he2 : e0 = e := by simpa [caEnvFirstError] using he
          subst he2
          rw [hrun]
          refine ⟨rfl, ?_⟩
          apply hfinal
          · rw [hfs3]
            exact chainCons2 fs.files _ _ _ _ hk hc hck
          · rfl
      | none =>
        have hfs4 : ((((fs.mkdir (caSubdirOf n)).writeFile (caKeyPath n) 420).writeFile
            (caCertPath n) 420).chmod (caKeyPath n) 0o600).files =
            (caCertPath n, 420) :: (caKeyPath n, 0o600) :: fs.files := by
          show ((((fs.mkdir (caSubdirOf n)).writeFile (caKeyPath n) 420).writeFile
            (caCertPath n) 420).files).map
              (fun e => if e.1 == caKeyPath n then (e.1, 0o600) else e) =
            (caCertPath n, 420) :: (caKeyPath n, 0o600) :: fs.files
          rw [hfs3]
          rw [List.map_cons, List.map_cons]
          rw [show ((caCertPath n, 420).1 == caKeyPath n) = false from hck]
          rw [show ((caKeyPath n, 420).1 == caKeyPath n) = true from beq_self_eq_true _]
          simp only [Bool.false_eq_true, if_false, if_true]
          rw [map_chmod_of_any_false fs.files _ _ hk]
        cases cc with
        | some e0 =>
          have hrun : createRootCA fs n ks vd
              (CAEnv.mk StepOutcome.ok StepOutcome.ok none (some e0)) =
              RunResult.mk
                (caCleanup
                  ((((fs.mkdir (caSubdirOf n)).writeFile (caKeyPath n) 420).writeFile
                    (caCertPath n) 420).chmod (caKeyPath n) 0o600)
                  (caSubdirOf n) (caKeyPath n) (caCertPath n))
                (Except.error (PyError.external e0))
                ["openssl genrsa", "openssl req -new -x509"] := by
            unfold createRootCA
            rw [hcond]
            simp only [Bool.false_eq_true, if_false]
          constructor
          · intro h0
            exact absurd h0 (by simp [caEnvFirstError])
          · intro e he
            have he2 : e0 = e := by simpa [caEnvFirstError] using he
            subst he2
            rw [hrun]
            refine ⟨rfl, ?_⟩
            apply hfinal
            · rw [hfs4]
              exact chainCons2 fs.files _ _ _ _ hk hc hck
            · rfl
        | none =>
          have hrun : createRootCA fs n ks vd
              (CAEnv.mk StepOutcome.ok StepOutcome.ok none none) =
              RunResult.mk
                (((((fs.mkdir (caSubdirOf n)).writeFile (caKeyPath n) 420).writeFile
                  (caCertPath n) 420).chmod (caKeyPath n) 0o600).chmod
                  (caCertPath n) 0o644)
                (Except.ok (CACreated.mk n (caKeyPath n) (caCertPath n) ks vd))
                ["openssl genrsa", "openssl req -new -x509"] := by
            unfold createRootCA
            rw [hcond]
            simp only [Bool.false_eq_true, if_false]
          have hfs5 : (((((fs.mkdir (caSubdirOf n)).writeFile (caKeyPath n) 420).writeFile
              (caCertPath n) 420).chmod (caKeyPath n) 0o600).chmod
              (caCertPath n) 0o644).files =
              (caCertPath n, 0o644) :: (caKeyPath n, 0o600) :: fs.files := by
            show (((((fs.mkdir (caSubdirOf n)).writeFile (caKeyPath n) 420).writeFile
              (caCertPath n) 420).chmod (caKeyPath n) 0o600).files).map
                (fun e => if e.1 == caCertPath n then (e.1, 0o644) else e) =
              (caCertPath n, 0o644) :: (caKeyPath n, 0o600) :: fs.files
            rw [hfs4]
            rw [List.map_cons, List.map_cons]
            rw [show ((caCertPath n, 420).1 == caCertPath n) = true from beq_self_eq_true _]
            rw [show ((caKeyPath n, 0o600).1 == caCertPath n) = false from hkc]
            simp only [Bool.false_eq_true, if_false, if_true]
            rw [map_chmod_of_any_false fs.files _ _ hc]
          constructor
          · intro h0
            rw [hrun]
            refine ⟨rfl, ?_, ?_⟩
            · show ((((((fs.mkdir (caSubdirOf n)).writeFile (caKeyPath n) 420).writeFile
                (caCertPath n) 420).chmod (caKeyPath n) 0o600).chmod
                (caCertPath n) 0o644).files.find? (fun e => e.1 == caKeyPath n)).map
                  (fun e => e.2) = some 0o600
              rw [hfs5]
              rw [List.find?_cons]
              rw [show ((caCertPath n, 0o644).1 == caKeyPath n) = false from hck]
              rw [List.find?_cons]
              rw [show ((caKeyPath n, 0o600).1 == caKeyPath n) = true from beq_self_eq_true _]
              rfl
            · show ((((((fs.mkdir (caSubdirOf n)).writeFile (caKeyPath n) 420).writeFile
                (caCertPath n) 420).chmod (caKeyPath n) 0o600).chmod
                (caCertPath n) 0o644).files.find? (fun e => e.1 == caCertPath n)).map
                  (fun e => e.2) = some 0o644
              rw [hfs5]
              rw [List.find?_cons]
              rw [show ((caCertPath n, 0o644).1 == caCertPath n) = true from beq_self_eq_true _]
              rfl
          · intro e he
            exact absurd he (by simp [caEnvFirstError])

/-- Witness for ca_create_all_or_nothing at concrete inputs: an empty base
tree, CA name myca, a failing certificate-generation step. -/
theorem ca_create_all_or_nothing_witness :
    (createRootCA (FS.mk [] [["ca"], ["certs"]]) "myca" 2048 3650
        (CAEnv.mk StepOutcome.ok (StepOutcome.fail false 3) none none)).result =
      Except.error (PyError.external 3) ∧
    (createRootCA (FS.mk [] [["ca"], ["certs"]]) "myca" 2048 3650
        (CAEnv.mk StepOutcome.ok (StepOutcome.fail false 3) none none)).fs.fileExists
      (caKeyPath "myca") = false ∧
    (createRootCA (FS.mk [] [["ca"], ["certs"]]) "myca" 2048 3650
        (CAEnv.mk StepOutcome.ok StepOutcome.ok none none)).fs.fileMode
      (caKeyPath "myca") = some 0o600 := by
  have h1 := ca_create_all_or_nothing (FS.mk [] [["ca"], ["certs"]]) "myca" 2048 3650
    (CAEnv.mk StepOutcome.ok (StepOutcome.fail false 3) none none) (by decide) (by decide)
  have h2 := ca_create_all_or_nothing (FS.mk [] [["ca"], ["certs"]]) "myca" 2048 3650
    (CAEnv.mk StepOutcome.ok StepOutcome.ok none none) (by decide) (by decide)
  obtain ⟨hf1, hf2, -⟩ := h1.2 3 (by decide)
  obtain ⟨-, hm, -⟩ := h2.1 (by decide)
  exact ⟨hf1, hf2, hm⟩

/-- C2: duplicate CA rejection.  If either output file for the name already
exists, create_root_ca raises AlreadyExists, invokes no external tool, and
leaves every file (of this CA and of everything else) unchanged. -/
theorem ca_duplicate_rejected (fs : FS) (n : String) (ks vd : Nat) (env : CAEnv)
    (h : fs.fileExists (caKeyPath n) = true ∨ fs.fileExists (caCertPath n) = true) :
    (createRootCA fs n ks vd env).result = Except.error PyError.alreadyExists ∧
    (createRootCA fs n ks vd env).extCalls = [] ∧
    (createRootCA fs n ks vd env).fs.files = fs.files := by
  have hcond : ((fs.mkdir (caSubdirOf n)).fileExists (caKeyPath n) ||
      (fs.mkdir (caSubdirOf n)).fileExists (caCertPath n)) = true := by
    rw [fileExists_mkdir, fileExists_mkdir]
    rcases h with h | h
    · rw [h, Bool.true_or]
    · rw [h, Bool.or_true]
  unfold createRootCA
  rw [hcond]
  exact ⟨rfl, rfl, files_mkdir fs (caSubdirOf n)⟩

/-- Witness for ca_duplicate_rejected: a tree already holding the key file
of CA myca. -/
theorem ca_duplicate_rejected_witness :
    (createRootCA
        (FS.mk [(caKeyPath "myca", 0o600)] [["ca"], ["ca", "myca"], ["certs"]])
        "myca" 2048 3650 (CAEnv.mk StepOutcome.ok StepOutcome.ok none none)).result =
      Except.error PyError.alreadyExists ∧
    (createRootCA
        (FS.mk [(caKeyPath "myca", 0o600)] [["ca"], ["ca", "myca"], ["certs"]])
        "myca" 2048 3650 (CAEnv.mk StepOutcome.ok StepOutcome.ok none none)).extCalls = [] := by
  have h := ca_duplicate_rejected
    (FS.mk [(caKeyPath "myca", 0o600)] [["ca"], ["ca", "myca"], ["certs"]])
    "myca" 2048 3650 (CAEnv.mk StepOutcome.ok StepOutcome.ok none none)
    (Or.inl (by decide))
  exact ⟨h.1, h.2.1⟩

theorem wf_file_ancestor (fs : FS) (hwf : fs.wf = true) (p : PathC) (m : Nat)
    (hm : (p, m) ∈ fs.files) (d : PathC) (hd : d ∈ ancestorsC p) :
    fs.dirExists d = true := by
  unfold FS.wf at hwf
  rw [Bool.and_eq_true] at hwf
  have h1 := hwf.1
  rw [List.all_eq_true] at h1
  have h2 := h1 (p, m) hm
  rw [List.all_eq_true] at h2
  exact h2 d hd

theorem ancestors_triple (a b c : String) :
    ancestorsC [a, b, c] = [[a], [a, b]] := rfl

theorem ancestors_quad (a b c d : String) :
    ancestorsC [a, b, c, d] = [[a], [a, b], [a, b, c]] := rfl

theorem childNameUnder_append (d : PathC) (x : String) :
    childNameUnder d (d ++ [x]) = some x := by
  unfold childNameUnder
  rw [if_pos]
  · exact List.getLast?_concat d
  · have hpre : d.isPrefixOf (d ++ [x]) = true := by
      rw [List.isPrefixOf_iff_prefix]
      exact ⟨[x], rfl⟩
    rw [hpre]
    simp

theorem mem_dirEntries_dir (fs : FS) (d : PathC) (x : String)
    (h : (d ++ [x]) ∈ fs.dirs) : (x, true) ∈ fs.dirEntries d := by
  unfold FS.dirEntries
  apply List.mem_append_left
  rw [List.mem_filterMap]
  exact ⟨d ++ [x], h, by rw [childNameUnder_append]; rfl⟩

/-- C3: list/get completeness invariant.  On a well-formed filesystem,
get_ca reports a CA iff both its files exist; list_cas lists a name iff
both files exist; get_certs_by_ca lists a certificate name iff both leaf
files exist; and a missing certs/{ca} directory yields the empty list.
Partial directories and non-directory entries fail the respective
conditions and are skipped. -/
theorem list_get_completeness (fs : FS) (n ca c : String) (hwf : fs.wf = true) :
    ((getCA fs n).isSome =
      (fs.fileExists (caKeyPath n) && fs.fileExists (caCertPath n))) ∧
    ((listCAs fs).any (fun r => r.name == n) =
      (fs.fileExists (caKeyPath n) && fs.fileExists (caCertPath n))) ∧
    ((getCertsByCA fs ca).any (fun r => r.name == c) =
      (fs.fileExists (leafKeyPath ca c) && fs.fileExists (leafCertPath ca c))) ∧
    (fs.dirExists (certDirOf ca) = false → getCertsByCA fs ca = []) := by
  refine ⟨?_, ?_, ?_, ?_⟩
  · unfold getCA
    cases hb : (fs.fileExists (caKeyPath n) && fs.fileExists (caCertPath n)) with
    | true => rfl
    | false => rfl
  · cases hb : (fs.fileExists (caKeyPath n) && fs.fileExists (caCertPath n)) with
    | true =>
      rw [Bool.and_eq_true] at hb
      obtain ⟨m, hm⟩ := (fileExists_iff fs (caKeyPath n)).mp hb.1
      have hanc : (["ca", n] : PathC) ∈ ancestorsC (caKeyPath n) := by
        rw [show caKeyPath n = ["ca", n, n ++ ".key.pem"] from rfl, ancestors_triple]
        simp
      have hdir := wf_file_ancestor fs hwf _ m hm _ hanc
      have hmemdir : (["ca"] ++ [n] : PathC) ∈ fs.dirs :=
        (dirExists_iff fs _).mp hdir
      have hentry := mem_dirEntries_dir fs ["ca"] n hmemdir
      rw [List.any_eq_true]
      refine ⟨CAEntry.mk n (caKeyPath n) (caCertPath n), ?_, by simp⟩
      rw [show (listCAs fs) = (fs.dirEntries ["ca"]).filterMap (fun e =>
        if e.2 && fs.fileExists (caKeyPath e.1) && fs.fileExists (caCertPath e.1) then
          some (CAEntry.mk e.1 (caKeyPath e.1) (caCertPath e.1))
        else none) from rfl]
      rw [List.mem_filterMap]
      refine ⟨(n, true), hentry, ?_⟩
      rw [if_pos (by simp [hb.1, hb.2])]
    | false =>
      cases hL : (listCAs fs).any (fun r => r.name == n) with
      | false => rfl
      | true =>
        exfalso
        rw [List.any_eq_true] at hL
        obtain ⟨r, hr, hrn⟩ := hL
        unfold listCAs at hr
        rw [List.mem_filterMap] at hr
        obtain ⟨e, _, hcase⟩ := hr
        by_cases hcond :
            (e.2 && fs.fileExists (caKeyPath e.1) && fs.fileExists (caCertPath e.1)) = true
        · rw [if_pos hcond] at hcase
          have hre : r = CAEntry.mk e.1 (caKeyPath e.1) (caCertPath e.1) :=
            (Option.some.inj hcase).symm
          have hen : e.1 = n := by
            rw [hre] at hrn
            simpa using hrn
          rw [Bool.and_eq_true, Bool.and_eq_true] at hcond
          rw [hen] at hcond
          rw [hcond.1.2, hcond.2] at hb
          simp at hb
        · rw [if_neg hcond] at hcase
          exact Option.noConfusion hcase
  · cases hb : (fs.fileExists (leafKeyPath ca c) && fs.fileExists (leafCertPath ca c)) with
    | true =>
      rw [Bool.and_eq_true] at hb
      obtain ⟨m, hm⟩ := (fileExists_iff fs (leafKeyPath ca c)).mp hb.1
      have hanc2 : (["certs", ca] : PathC) ∈ ancestorsC (leafKeyPath ca c) := by
        rw [show leafKeyPath ca c = ["certs", ca, c, "key.pem"] from rfl, ancestors_quad]
        simp
      have hanc3 : (["certs", ca, c] : PathC) ∈ ancestorsC (leafKeyPath ca c) := by
        rw [show leafKeyPath ca c = ["certs", ca, c, "key.pem"] from rfl, ancestors_quad]
        simp
      have hdir2 := wf_file_ancestor fs hwf _ m hm _ hanc2
      have hdir3 := wf_file_ancestor fs hwf _ m hm _ hanc3
      have hmemdir : (["certs", ca] ++ [c] : PathC) ∈ fs.dirs :=
        (dirExists_iff fs _).mp hdir3
      have hentry := mem_dirEntries_dir fs ["certs", ca] c hmemdir
      unfold getCertsByCA
      rw [if_neg (by rw [show certDirOf ca = ["certs", ca] from rfl, hdir2]; simp)]
      rw [List.any_eq_true]
      refine ⟨CAEntry.mk c (leafKeyPath ca c) (leafCertPath ca c), ?_, by simp⟩
      rw [List.mem_filterMap]
      refine ⟨(c, true), hentry, ?_⟩
      rw [if_pos (by simp [hb.1, hb.2])]
    | false =>
      cases hL : (getCertsByCA fs ca).any (fun r => r.name == c) with
      | false => rfl
      | true =>
        exfalso
        rw [List.any_eq_true] at hL
        obtain ⟨r, hr, hrn⟩ := hL
        unfold getCertsByCA at hr
        by_cases hdc : fs.dirExists (certDirOf ca) = true
        · rw [if_neg (by simp [hdc])] at hr
          rw [List.mem_filterMap] at hr
          obtain ⟨e, _, hcase⟩ := hr
          by_cases hcond : (e.2 && fs.fileExists (leafKeyPath ca e.1) &&
              fs.fileExists (leafCertPath ca e.1)) = true
          · rw [if_pos hcond] at hcase
            have hre : r = CAEntry.mk e.1 (leafKeyPath ca e.1) (leafCertPath ca e.1) :=
              (Option.some.inj hcase).symm
            have hen : e.1 = c := by
              rw [hre] at hrn
              simpa using hrn
            rw [Bool.and_eq_true, Bool.and_eq_true] at hcond
            rw [hen] at hcond
            rw [hcond.1.2, hcond.2] at hb
            simp at hb
          · rw [if_neg hcond] at hcase
            exact Option.noConfusion hcase
        · rw [if_pos (by simp_all)] at hr
          exact absurd hr (List.not_mem_nil r)
  · intro hdc
    unfold getCertsByCA
    rw [if_pos (by simp [hdc])]

/-- Witness for list_get_completeness: a tree with one complete CA, one
partial CA (key only), and one complete leaf certificate. -/
theorem list_get_completeness_witness :
    ((getCA
        (FS.mk [(caKeyPath "good", 384), (caCertPath "good", 420), (caKeyPath "half", 384)]
          [["ca"], ["certs"], ["ca", "good"], ["ca", "half"]])
        "good").isSome = true) ∧
    ((listCAs
        (FS.mk [(caKeyPath "good", 384), (caCertPath "good", 420), (caKeyPath "half", 384)]
          [["ca"], ["certs"], ["ca", "good"], ["ca", "half"]])).any
      (fun r => r.name == "half") = false) ∧
    (getCertsByCA
        (FS.mk [(caKeyPath "good", 384), (caCertPath "good", 420), (caKeyPath "half", 384)]
          [["ca"], ["certs"], ["ca", "good"], ["ca", "half"]]) "good" = []) := by
  have h1 := list_get_completeness
    (FS.mk [(caKeyPath "good", 384), (caCertPath "good", 420), (caKeyPath "half", 384)]
      [["ca"], ["certs"], ["ca", "good"], ["ca", "half"]])
    "good" "good" "web" (by decide)
  have h2 := list_get_completeness
    (FS.mk [(caKeyPath "good", 384), (caCertPath "good", 420), (caKeyPath "half", 384)]
      [["ca"], ["certs"], ["ca", "good"], ["ca", "half"]])
    "half" "good" "web" (by decide)
  refine ⟨?_, ?_, ?_⟩
  · rw [h1.1]; decide
  · rw [h2.2.1]; decide
  · exact h1.2.2.2 (by decide)

/-- C4: evaluation of sign_certificate at a failing input.  When the key
generation step itself fails (the first openssl call of the try block),
the except handler dereferences the not-yet-assigned csr_path, so the
operation raises UnboundLocalError instead of the triggering error, and the
freshly created, now empty certificate directory and CA certs directory are
left behind instead of being removed as the claim requires. -/
theorem sign_cleanup_keygen_divergence :
    (signCertificate (FS.mk [] [["certs"]]) (caKeyPath "myca") (caCertPath "myca")
        "myca" "web" "server" "" none none "" "CN" "Beijing" "Beijing" 365 2048
        (SignEnv.mk (StepOutcome.fail false 7) StepOutcome.ok StepOutcome.ok
          none none)).result =
      Except.error (PyError.unboundLocal "csr_path") ∧
    (signCertificate (FS.mk [] [["certs"]]) (caKeyPath "myca") (caCertPath "myca")
        "myca" "web" "server" "" none none "" "CN" "Beijing" "Beijing" 365 2048
        (SignEnv.mk (StepOutcome.fail false 7) StepOutcome.ok StepOutcome.ok
          none none)).fs.dirExists (leafDirOf "myca" "web") = true ∧
    (signCertificate (FS.mk [] [["certs"]]) (caKeyPath "myca") (caCertPath "myca")
        "myca" "web" "server" "" none none "" "CN" "Beijing" "Beijing" 365 2048
        (SignEnv.mk (StepOutcome.fail false 7) StepOutcome.ok StepOutcome.ok
          none none)).fs.hasEntryUnder (leafDirOf "myca" "web") = false ∧
    (signCertificate (FS.mk [] [["certs"]]) (caKeyPath "myca") (caCertPath "myca")
        "myca" "web" "server" "" none none "" "CN" "Beijing" "Beijing" 365 2048
        (SignEnv.mk (StepOutcome.fail false 7) StepOutcome.ok StepOutcome.ok
          none none)).fs.fileExists (leafKeyPath "myca" "web") = false :=
  ⟨rfl, rfl, rfl, rfl⟩

/-- C5: common-name derivation precedence in sign_certificate.  Whenever
the supplied common name is empty, the effective Common Name is the first
DNS name if any were given, else the first IP address if any were given,
else the own name of the certificate, and the configuration handed to openssl
carries exactly that derived value. -/
theorem common_name_derivation (cn certName : String) (dns ips : List String)
    (h : cn = "") :
    (∀ d rest, dns = d :: rest → deriveCommonName cn dns ips certName = d) ∧
    (dns = [] → ∀ i rest, ips = i :: rest → deriveCommonName cn dns ips certName = i) ∧
    (dns = [] → ips = [] → deriveCommonName cn dns ips certName = certName) ∧
    (∀ fs caKeyArg caCertArg caName certType org country st city vd ks env,
      (signCertificate fs caKeyArg caCertArg caName certName certType cn
        (some dns) (some ips) org country st city vd ks env).config.commonName =
        deriveCommonName cn dns ips certName) := by
  subst h
  refine ⟨?_, ?_, ?_, ?_⟩
  · intro d rest hd
    subst hd
    rfl
  · intro hd i rest hi
    subst hd
    subst hi
    rfl
  · intro hd hi
    subst hd
    subst hi
    rfl
  · intro fs caKeyArg caCertArg caName certType org country st city vd ks env
    rfl

/-- Witness for common_name_derivation at three characteristic examples. -/
theorem common_name_derivation_witness :
    deriveCommonName "" ["a.example.com", "b.example.com"] [] "web" = "a.example.com" ∧
    deriveCommonName "" [] ["127.0.0.1"] "web" = "127.0.0.1" ∧
    deriveCommonName "" [] [] "web" = "web" ∧
    (signCertificate (FS.mk [] [["certs"]]) (caKeyPath "myca") (caCertPath "myca")
        "myca" "web" "server" "" (some ["a.example.com", "b.example.com"]) (some [])
        "Dev" "CN" "Beijing" "Beijing" 365 2048
        (SignEnv.mk StepOutcome.ok StepOutcome.ok StepOutcome.ok
          none none)).config.commonName = "a.example.com" := by
  have h1 := common_name_derivation "" "web" ["a.example.com", "b.example.com"] [] rfl
  have h2 := common_name_derivation "" "web" [] ["127.0.0.1"] rfl
  have h3 := common_name_derivation "" "web" [] [] rfl
  refine ⟨h1.1 "a.example.com" ["b.example.com"] rfl, ?_, h3.2.2.1 rfl rfl, ?_⟩
  · exact h2.2.1 rfl "127.0.0.1" [] rfl
  · rw [h1.2.2.2 (FS.mk [] [["certs"]]) (caKeyPath "myca") (caCertPath "myca") "myca"
      "server" "Dev" "CN" "Beijing" "Beijing" 365 2048
      (SignEnv.mk StepOutcome.ok StepOutcome.ok StepOutcome.ok none none)]
    exact h1.1 "a.example.com" ["b.example.com"] rfl

theorem isEmpty_false_of_ne_nil {α : Type} {l : List α} (h : l ≠ []) :
    l.isEmpty = false := by
  cases l with
  | nil => exact absurd rfl h
  | cons a t => rfl

/-- C6: i18n fallback chain.  Setting an unsupported (normalised) language
code fails and leaves the state unchanged; translation resolves through the
active catalog, then the English catalog, then the key itself; a non-empty
hit is interpolated when arguments are given, falling back to the
un-interpolated string when interpolation fails; a wholly unknown key is
returned unchanged or interpolated as a template.  Every function involved
is total, so no input makes translation raise. -/
theorem i18n_fallback_chain (load : String → List (String × String))
    (st : I18nState) (lang key v : String) :
    ((SUPPORTED_LANGUAGES.map Prod.fst).contains (normalizeLang lang) = false →
      setLanguage load st lang = (st, false)) ∧
    (catalogHit st st.currentLanguage key = some v →
      tFun st key [] = v ∧
      (∀ kw s, kw ≠ [] → pyFormat v kw = some s → tFun st key kw = s) ∧
      (∀ kw, kw ≠ [] → pyFormat v kw = none → tFun st key kw = v)) ∧
    (catalogHit st st.currentLanguage key = none →
      catalogHit st DEFAULT_LANGUAGE key = some v →
      tFun st key [] = v ∧
      (∀ kw s, kw ≠ [] → pyFormat v kw = some s → tFun st key kw = s) ∧
      (∀ kw, kw ≠ [] → pyFormat v kw = none → tFun st key kw = v)) ∧
    (catalogHit st st.currentLanguage key = none →
      catalogHit st DEFAULT_LANGUAGE key = none →
      tFun st key [] = key ∧
      (∀ kw s, kw ≠ [] → pyFormat key kw = some s → tFun st key kw = s) ∧
      (∀ kw, kw ≠ [] → pyFormat key kw = none → tFun st key kw = key)) := by
  refine ⟨?_, ?_, ?_, ?_⟩
  · intro hns
    unfold setLanguage
    rw [if_neg (by rw [hns]; exact Bool.false_ne_true)]
  · intro hhit
    refine ⟨?_, ?_, ?_⟩
    · unfold tFun
      rw [hhit]
      rfl
    · intro kw s hkw hfmt
      unfold tFun
      rw [hhit]
      show applyKwargs v kw = s
      unfold applyKwargs
      rw [if_neg (by rw [isEmpty_false_of_ne_nil hkw]; exact Bool.false_ne_true), hfmt]
      rfl
    · intro kw hkw hfmt
      unfold tFun
      rw [hhit]
      show applyKwargs v kw = v
      unfold applyKwargs
      rw [if_neg (by rw [isEmpty_false_of_ne_nil hkw]; exact Bool.false_ne_true), hfmt]
      rfl
  · intro hmiss hhit
    refine ⟨?_, ?_, ?_⟩
    · unfold tFun
      rw [hmiss, hhit]
      rfl
    · intro kw s hkw hfmt
      unfold tFun
      rw [hmiss, hhit]
      show applyKwargs v kw = s
      unfold applyKwargs
      rw [if_neg (by rw [isEmpty_false_of_ne_nil hkw]; exact Bool.false_ne_true), hfmt]
      rfl
    · intro kw hkw hfmt
      unfold tFun
      rw [hmiss, hhit]
      show applyKwargs v kw = v
      unfold applyKwargs
      rw [if_neg (by rw [isEmpty_false_of_ne_nil hkw]; exact Bool.false_ne_true), hfmt]
      rfl
  · intro hmiss hmiss2
    refine ⟨?_, ?_, ?_⟩
    · unfold tFun
      rw [hmiss, hmiss2]
      rfl
    · intro kw s hkw hfmt
      unfold tFun
      rw [hmiss, hmiss2]
      show (if kw.isEmpty then key else (pyFormat key kw).getD key) = s
      rw [if_neg (by rw [isEmpty_false_of_ne_nil hkw]; exact Bool.false_ne_true), hfmt]
      rfl
    · intro kw hkw hfmt
      unfold tFun
      rw [hmiss, hmiss2]
      show (if kw.isEmpty then key else (pyFormat key kw).getD key) = key
      rw [if_neg (by rw [isEmpty_false_of_ne_nil hkw]; exact Bool.false_ne_true), hfmt]
      rfl

/-- Witness for i18n_fallback_chain over a concrete state: active language
zh with a local hit, an English-only key, a wholly unknown key, and an
unknown key interpolated as a template. -/
theorem i18n_fallback_chain_witness :
    setLanguage (fun _ => [])
      (I18nState.mk "zh"
        [("zh", [("greet", "nihao"), ("ui.empty", "")]),
         ("en", [("greet", "hello"), ("only.en", "english text")])]) "xx" =
      (I18nState.mk "zh"
        [("zh", [("greet", "nihao"), ("ui.empty", "")]),
         ("en", [("greet", "hello"), ("only.en", "english text")])], false) ∧
    tFun (I18nState.mk "zh"
        [("zh", [("greet", "nihao"), ("ui.empty", "")]),
         ("en", [("greet", "hello"), ("only.en", "english text")])]) "greet" [] = "nihao" ∧
    tFun (I18nState.mk "zh"
        [("zh", [("greet", "nihao"), ("ui.empty", "")]),
         ("en", [("greet", "hello"), ("only.en", "english text")])]) "only.en" [] =
      "english text" ∧
    tFun (I18nState.mk "zh"
        [("zh", [("greet", "nihao"), ("ui.empty", "")]),
         ("en", [("greet", "hello"), ("only.en", "english text")])]) "missing.key" [] =
      "missing.key" ∧
    tFun (I18nState.mk "zh"
        [("zh", [("greet", "nihao"), ("ui.empty", "")]),
         ("en", [("greet", "hello"), ("only.en", "english text")])])
      "Hi \x7bname\x7d" [("name", "Bob")] = "Hi Bob" := by
  have h1 := i18n_fallback_chain (fun _ => [])
    (I18nState.mk "zh"
      [("zh", [("greet", "nihao"), ("ui.empty", "")]),
       ("en", [("greet", "hello"), ("only.en", "english text")])]) "xx" "greet" "nihao"
  have h2 := i18n_fallback_chain (fun _ => [])
    (I18nState.mk "zh"
      [("zh", [("greet", "nihao"), ("ui.empty", "")]),
       ("en", [("greet", "hello"), ("only.en", "english text")])]) "xx" "only.en"
    "english text"
  have h3 := i18n_fallback_chain (fun _ => [])
    (I18nState.mk "zh"
      [("zh", [("greet", "nihao"), ("ui.empty", "")]),
       ("en", [("greet", "hello"), ("only.en", "english text")])]) "xx" "missing.key" ""
  have h4 := i18n_fallback_chain (fun _ => [])
    (I18nState.mk "zh"
      [("zh", [("greet", "nihao"), ("ui.empty", "")]),
       ("en", [("greet", "hello"), ("only.en", "english text")])]) "xx"
    "Hi \x7bname\x7d" ""
  refine ⟨h1.1 (by decide), (h1.2.1 (by decide)).1, (h2.2.2.1 (by decide) (by decide)).1,
    (h3.2.2.2 (by decide) (by decide)).1, ?_⟩
  exact (h4.2.2.2 (by decide) (by decide)).2.1 [("name", "Bob")] "Hi Bob"
    (by decide) (by decide)

/-- C7: tool-check gating.  On every platform the overall check equals the
availability of openssl, the only tool registered as required; a false
check without --skip-check makes the CLI exit with code 1 before any
manager is constructed, and a true check lets it proceed. -/
theorem tool_check_gating (p : Platform) (avail : String → Bool) :
    (checkSystemRequirements p avail = avail "openssl") ∧
    ((requiredTools p).filter (fun t2 => t2.2) = [("openssl", true)]) ∧
    (avail "openssl" = false →
      cliStart false false (checkSystemRequirements p avail) =
        CliStart.mk (CliOutcome.exited 1) false) ∧
    (avail "openssl" = true →
      cliStart false false (checkSystemRequirements p avail) =
        CliStart.mk CliOutcome.proceeded true) := by
  have hmain : checkSystemRequirements p avail = avail "openssl" := by
    cases p <;> cases h : avail "openssl" <;>
      simp [checkSystemRequirements, checkAll, printCheckResults, requiredTools, h]
  refine ⟨hmain, ?_, ?_, ?_⟩
  · cases p <;> rfl
  · intro h
    rw [hmain, h]
    rfl
  · intro h
    rw [hmain, h]
    rfl

/-- Witness for tool_check_gating: openssl missing fails the check and
exits 1; only optional tools missing passes the check and proceeds. -/
theorem tool_check_gating_witness :
    checkSystemRequirements Platform.linux (fun _ => false) = false ∧
    cliStart false false (checkSystemRequirements Platform.linux (fun _ => false)) =
      CliStart.mk (CliOutcome.exited 1) false ∧
    checkSystemRequirements Platform.linux (fun t2 => t2 == "openssl") = true ∧
    cliStart false false
      (checkSystemRequirements Platform.linux (fun t2 => t2 == "openssl")) =
      CliStart.mk CliOutcome.proceeded true := by
  have h1 := tool_check_gating Platform.linux (fun _ => false)
  have h2 := tool_check_gating Platform.linux (fun t2 => t2 == "openssl")
  refine ⟨?_, h1.2.2.1 rfl, ?_, h2.2.2.2 (by decide)⟩
  · rw [h1.1]
  · rw [h2.1]
    decide

/-- C8 counterexample: when the external tool cannot be started at all
(FileNotFoundError), get_certificate_info propagates the exception instead
of returning the placeholder, because only CalledProcessError is caught;
likewise for get_ca_info. -/
theorem cert_info_startfailure_raises :
    getCertificateInfo (RunOutcome.startFailure "no openssl") =
      Except.error (PyError.fileNotFound "no openssl") ∧
    getCAInfo (RunOutcome.startFailure "no openssl") =
      Except.error (PyError.fileNotFound "no openssl") ∧
    exceptIsOk (getCertificateInfo (RunOutcome.startFailure "no openssl")) = false :=
  ⟨rfl, rfl, rfl⟩

/-- C8 as amended: whenever the external tool starts (it exits zero or
non-zero), both info operations return a value and never propagate an
exception: the rendered text on success, the fixed placeholder string on a
non-zero exit. -/
theorem cert_info_no_raise (run : RunOutcome)
    (h : ∀ msg, run ≠ RunOutcome.startFailure msg) :
    exceptIsOk (getCAInfo run) = true ∧
    exceptIsOk (getCertificateInfo run) = true ∧
    (∀ out, run = RunOutcome.success out →
      getCAInfo run = Except.ok out ∧ getCertificateInfo run = Except.ok out) ∧
    (∀ code, run = RunOutcome.calledProcessError code →
      getCAInfo run = Except.ok "Failed to read certificate" ∧
      getCertificateInfo run = Except.ok "Failed to read certificate") := by
  cases run with
  | success out =>
    refine ⟨rfl, rfl, ?_, ?_⟩
    · intro o ho
      cases ho
      exact ⟨rfl, rfl⟩
    · intro code hc
      exact RunOutcome.noConfusion hc
  | calledProcessError code =>
    refine ⟨rfl, rfl, ?_, ?_⟩
    · intro o ho
      exact RunOutcome.noConfusion ho
    · intro c2 hc
      cases hc
      exact ⟨rfl, rfl⟩
  | startFailure msg => exact absurd rfl (h msg)

/-- Witness for cert_info_no_raise at the two startable outcomes. -/
theorem cert_info_no_raise_witness :
    getCAInfo (RunOutcome.calledProcessError 1) =
      Except.ok "Failed to read certificate" ∧
    getCertificateInfo (RunOutcome.success "cert text") = Except.ok "cert text" := by
  have h1 := cert_info_no_raise (RunOutcome.calledProcessError 1)
    (fun msg h => RunOutcome.noConfusion h)
  have h2 := cert_info_no_raise (RunOutcome.success "cert text")
    (fun msg h => RunOutcome.noConfusion h)
  exact ⟨(h1.2.2.2 1 rfl).1, (h2.2.2.1 "cert text" rfl).2⟩

/-- C9 counterexample: the path /tmp/aoutputb is unrelated to the base
directory output in the sense of the claim (not prefixed by it with either
separator, not under its resolved form, not equal to it), yet _format_path
rewrites it to b through the substring-split branch instead of returning
it unchanged. -/
theorem format_path_unrelated_counterexample :
    (("output".data ++ [slashC]).isPrefixOf "/tmp/aoutputb".data) = false ∧
    (("output".data ++ [backslashC]).isPrefixOf "/tmp/aoutputb".data) = false ∧
    ((resolveL "/home/user".data "output".data ++ [slashC]).isPrefixOf
      (resolveL "/home/user".data "/tmp/aoutputb".data)) = false ∧
    resolveL "/home/user".data "/tmp/aoutputb".data ≠
      resolveL "/home/user".data "output".data ∧
    formatPath "/home/user".data "output".data "/tmp/aoutputb".data = "b".data ∧
    "b".data ≠ "/tmp/aoutputb".data := by decide

/-- C9 as amended: a path with no relationship to the base directory that
moreover does not contain the base directory name as a substring is
returned unchanged (also when the substring split itself fails on an empty
base directory); an absolute path under the resolved base directory is
returned as its relative remainder.  formatPath is total, so no input makes
it raise. -/
theorem format_path_amended (cwd base path : List Char)
    (h1 : (base ++ [slashC]).isPrefixOf path = false)
    (h2 : (base ++ [backslashC]).isPrefixOf path = false) :
    ((resolveL cwd base ++ [slashC]).isPrefixOf (resolveL cwd path) = true →
      formatPath cwd base path =
        (resolveL cwd path).drop ((resolveL cwd base).length + 1)) ∧
    ((resolveL cwd base ++ [slashC]).isPrefixOf (resolveL cwd path) = false →
      resolveL cwd path ≠ resolveL cwd base →
      (∀ parts, splitOnL base path = some parts → parts.length ≤ 1 →
        formatPath cwd base path = path) ∧
      (splitOnL base path = none → formatPath cwd base path = path)) := by
  constructor
  · intro h3
    unfold formatPath
    rw [if_neg (by rw [h1]; exact Bool.false_ne_true),
      if_neg (by rw [h2]; exact Bool.false_ne_true), if_pos h3]
  · intro h3 h4
    constructor
    · intro parts hsplit hlen
      unfold formatPath
      rw [if_neg (by rw [h1]; exact Bool.false_ne_true),
        if_neg (by rw [h2]; exact Bool.false_ne_true),
        if_neg (by rw [h3]; exact Bool.false_ne_true), if_neg h4, hsplit]
      show (if parts.length > 1 then _ else path) = path
      rw [if_neg (by omega)]
    · intro hsplit
      unfold formatPath
      rw [if_neg (by rw [h1]; exact Bool.false_ne_true),
        if_neg (by rw [h2]; exact Bool.false_ne_true),
        if_neg (by rw [h3]; exact Bool.false_ne_true), if_neg h4, hsplit]

/-- Witness for format_path_amended: a path already relative to the base
directory is unchanged; an absolute path under the resolved base directory
becomes its relative remainder. -/
theorem format_path_amended_witness :
    formatPath "/home/u".data "output".data "ca/myca/myca.key.pem".data =
      "ca/myca/myca.key.pem".data ∧
    formatPath "/home/u".data "output".data "/home/u/output/ca/x.pem".data =
      "ca/x.pem".data := by
  have h1 := format_path_amended "/home/u".data "output".data
    "ca/myca/myca.key.pem".data (by decide) (by decide)
  have h2 := format_path_amended "/home/u".data "output".data
    "/home/u/output/ca/x.pem".data (by decide) (by decide)
  constructor
  · exact ((h1.2 (by decide) (by decide)).1
      (splitOnLAux "output".data ("ca/myca/myca.key.pem".data.length + 1)
        "ca/myca/myca.key.pem".data []) (by decide) (by decide))
  · rw [h2.1 (by decide)]
    decide

/-- C10 counterexample: with --cn absent and an empty --name, the CLI
passes an empty common name to the Certificate Manager, so the DNS-name
derivation is reached: the resulting Common Name is the first DNS name,
not the name of the certificate. -/
theorem cli_sign_empty_name_counterexample :
    cliSignCommonName none "" = "" ∧
    deriveCommonName (cliSignCommonName none "") ["a.example.com"] [] "" =
      "a.example.com" ∧
    ("a.example.com" : String) ≠ "" := by decide

/-- C10 as amended: every CLI sign invocation whose certificate name is
non-empty passes a non-empty common name (the --cn value when supplied and
non-empty, else the name), so the DNS/IP derivation of the Certificate Manager
is bypassed; in particular sign without --cn but with DNS names yields a
Common Name equal to the name of the certificate. -/
theorem cli_sign_common_name (cn : Option String) (name : String)
    (dns ips : List String) (h : name ≠ "") :
    cliSignCommonName cn name ≠ "" ∧
    deriveCommonName (cliSignCommonName cn name) dns ips name =
      cliSignCommonName cn name ∧
    (cn = none → deriveCommonName (cliSignCommonName cn name) dns ips name = name) := by
  cases cn with
  | none => simp [cliSignCommonName, deriveCommonName, h]
  | some c2 =>
    by_cases hc2 : c2 = "" <;>
      simp [cliSignCommonName, deriveCommonName, h, hc2]

/-- Witness for cli_sign_common_name: sign --name web --dns a.example.com
without --cn keeps CN = web. -/
theorem cli_sign_common_name_witness :
    cliSignCommonName none "web" ≠ "" ∧
    deriveCommonName (cliSignCommonName none "web") ["a.example.com"] [] "web" =
      "web" := by
  have h := cli_sign_common_name none "web" ["a.example.com"] [] (by decide)
  exact ⟨h.1, h.2.2 rfl⟩

end Certica
